import Mathlib

/-!
Verification development for the ullekhanam REST API
(src/vedavaapi/ullekhanam/api/v1/rest.py).

The handler-level control flow (annotation detection policy, file-extension
prevalidation, rollback on failed page saves, one-tree-at-a-time entity
upload) is translated directly from rest.py.  The entity store, entity
upsert, deletion and tree assembly live in the external sanskrit_data
library and are modelled from the specification where indicated.
-/

/-- A pixel rectangle, as in ullekhanam.Rectangle. -/
structure Rectangle where
  x : Int
  y : Int
  w : Int
  h : Int
deriving DecidableEq

/-- Provenance marker, as in ullekhanam.DataSource. -/
structure DataSource where
  source_type : String
  id : String
deriving DecidableEq

/-- A target relation: a directional edge to a container entity, with
optional geometric payload (ImageTarget carries a rectangle,
BookPositionTarget carries an ordinal position). -/
structure Target where
  container_id : String
  rectangle : Option Rectangle := none
  position : Option Int := none
deriving DecidableEq

/-- A polymorphic JSON entity: identity (absent until persisted), a type
tag (jsonClass), optional BookPortion fields, target relations, and an
optional provenance source. -/
structure Entity where
  id : Option String := none
  jsonClass : String
  title : Option String := none
  base_data : Option String := none
  targets : List Target := []
  source : Option DataSource := none
deriving DecidableEq

/-- Modelled from the spec: the document store holds persisted entities and
assigns fresh ids at first insert. -/
structure Store where
  entities : List Entity
  nextId : Nat
deriving DecidableEq

/-- Whether the store holds a persisted entity with the given id. -/
def Store.hasId (s : Store) (i : String) : Bool :=
  s.entities.any (fun e => e.id == some i)

/-- Modelled from the spec: findTargetters returns the entities whose
targets include a target naming the container id, optionally filtered to
one variant; ordering is a stable function of the store state. -/
def getTargettingEntities (s : Store) (containerId : String)
    (entityType : Option String) : List Entity :=
  s.entities.filter (fun e =>
    (match entityType with
     | none => true
     | some ty => e.jsonClass == ty) &&
    e.targets.any (fun t => t.container_id == containerId))

/-- Target references of an entity all resolve to persisted entities. -/
def targetsResolve (s : Store) (e : Entity) : Bool :=
  e.targets.all (fun t => s.hasId t.container_id)

/-- Validation failures raised by upsert (jsonschema ValidationError and
sanskrit_data TargetValidationError in the source). -/
inductive UpsertError where
  | targetValidation
  | schemaValidation
deriving DecidableEq

/-- Modelled from the spec: upsert validates that target references exist,
assigns an id if absent, and writes to the store; updates on an existing id
are replacements.  Fails with TargetValidationError when a target container
id is unresolvable. -/
def upsert (s : Store) (e : Entity) : Except UpsertError (Store × Entity) :=
  if targetsResolve s e then
    match e.id with
    | some _ =>
        Except.ok ({ s with entities := s.entities.map (fun x => if x.id = e.id then e else x) }, e)
    | none =>
        let newId := "e" ++ toString s.nextId
        let e2 := { e with id := some newId }
        Except.ok ({ entities := s.entities ++ [e2], nextId := s.nextId + 1 }, e2)
  else
    Except.error UpsertError.targetValidation

/-- Modelled from the spec: delete removes the entity with the given id;
idempotent, deleting a non-existent id is a no-op, not an error. -/
def deleteEntity (s : Store) (i : String) : Store :=
  { s with entities := s.entities.filter (fun e => !(e.id == some i)) }

/-! ## Annotation inference (AllPageAnnotationsHandler.update_image_annotations) -/

/-- A detected text region [x0, y0, x1, y1] with an optional relevance
score that is discarded. -/
structure Region where
  x0 : Int
  y0 : Int
  x1 : Int
  y1 : Int
  score : Option Rat := none
deriving DecidableEq

/-- The wire type id of ullekhanam.ImageAnnotation. -/
def imageAnnotationType : String := "ImageAnnotation"

/-- region_to_rectangle from rest.py: x = x0, y = y0, w = x1 - x0, h = y1 - y0. -/
def region_to_rectangle (reg : Region) : Rectangle :=
  { x := reg.x0, y := reg.y0, w := reg.x1 - reg.x0, h := reg.y1 - reg.y0 }

/-- Whether an entity carries source.source_type == "system_inferred".
The source reads x.source.source_type directly; an entity without a source
would raise there, the model treats it as not system-inferred. -/
def isSystemInferredB (e : Entity) : Bool :=
  match e.source with
  | some src => src.source_type == "system_inferred"
  | none => false

/-- The fresh ImageAnnotation entity built in the detection loop of
update_image_annotations: one ImageTarget on the page with the converted
rectangle, source system_inferred / pyCV2. -/
def mkAnnotEntity (pageId : String) (reg : Region) : Entity :=
  { id := none,
    jsonClass := imageAnnotationType,
    targets := [{ container_id := pageId, rectangle := some (region_to_rectangle reg) }],
    source := some { source_type := "system_inferred", id := "pyCV2" } }

/-- The detection loop of update_image_annotations: for each detected
region, build an annotation entity and persist it, collecting the persisted
entities in detection order.  A store error aborts the loop (in the source
an exception propagates; it cannot occur when the page id is persisted,
which every theorem below assumes). -/
def detectAndPersist (pageId : String) : Store → List Region → Store × List Entity
  | s, [] => (s, [])
  | s, reg :: rest =>
    match upsert s (mkAnnotEntity pageId reg) with
    | Except.ok (s2, a2) =>
        let r := detectAndPersist pageId s2 rest
        (r.1, a2 :: r.2)
    | Except.error _ => (s, [])

/-- update_image_annotations from rest.py: if annotations targeting the
page exist, return them unless force is set and none of them is
system-inferred; otherwise run detection and persist the results. -/
def updateImageAnnotations (s : Store) (pageId : String)
    (detectedRegions : List Region) (force_if_not_system_inferred : Bool) :
    Store × List Entity :=
  let known := getTargettingEntities s pageId (some imageAnnotationType)
  if known.length ≠ 0 then
    if force_if_not_system_inferred then
      let knownSI := known.filter isSystemInferredB
      if knownSI.length ≠ 0 then
        (s, known)
      else
        detectAndPersist pageId s detectedRegions
    else
      (s, known)
  else
    detectAndPersist pageId s detectedRegions

/-! ## Book upload (BookList.post) -/

/-- Index of the last occurrence of a character in a character list. -/
def lastIdxOf : List Char → Char → Option Nat
  | [], _ => none
  | x :: rest, c =>
    match lastIdxOf rest c with
    | some i => some (i + 1)
    | none => if x = c then some 0 else none

/-- os.path.splitext: split at the last dot, provided it lies after the
last path separator and some non-dot character of the basename precedes it
(leading dots of the basename never start an extension). -/
def splitext (p : String) : String × String :=
  let cs := p.data
  let si : Int := match lastIdxOf cs '/' with
    | none => -1
    | some i => Int.ofNat i
  match lastIdxOf cs '.' with
  | none => (p, "")
  | some d =>
    if decide (si < Int.ofNat d) &&
       (List.range d).any (fun fi =>
         decide (si < Int.ofNat fi) && (cs.getD fi '.' != '.')) then
      (String.mk (cs.take d), String.mk (cs.drop d))
    else
      (p, "")

/-- is_extension_allowed from rest.py. -/
def is_extension_allowed (filename : String)
    (allowed_extensions_with_dot : List String) : Bool :=
  allowed_extensions_with_dot.contains (splitext filename).2

/-- The allowed upload extensions checked in BookList.post. -/
def allowed_extensions : List String := [".jpg", ".png", ".gif"]

/-- The page entity built for uploaded file number i in BookList.post:
a BookPortion page with a BookPositionTarget on the book. -/
def pageEntity (bookId : String) (i : Nat) : Entity :=
  { id := none,
    jsonClass := "BookPortion",
    title := some ("pg_" ++ toString i),
    base_data := some "image",
    targets := [{ container_id := bookId, position := some (Int.ofNat i) }] }

/-- The page-saving loop of BookList.post, inside the try block: for each
uploaded file, persist a page entity and then save the image files; the
boolean per file says whether the file-system and imaging steps succeed.
Returns the store reached and whether the whole loop completed. -/
def savePages (bookId : String) : Store → List Bool → Nat → Store × Bool
  | s, [], _ => (s, true)
  | s, ok :: rest, i =>
    match upsert s (pageEntity bookId i) with
    | Except.error _ => (s, false)
    | Except.ok (s2, _page) =>
      if ok then savePages bookId s2 rest (i + 1) else (s2, false)

/-- Ids of persisted entities having a target into the given id set. -/
def idsTargeting (s : Store) (ids : List String) : List String :=
  (s.entities.filter (fun e =>
    e.targets.any (fun t => ids.contains t.container_id))).filterMap Entity.id

/-- Iterated closure of ids reachable from the root by targetter edges. -/
def deleteClosure (s : Store) (rootId : String) : Nat → List String
  | 0 => [rootId]
  | n + 1 =>
    let prev := deleteClosure s rootId n
    prev ++ idsTargeting s prev

/-- Modelled from the spec: JsonObjectNode.delete_in_collection used as the
compensating action deletes the just-created entity tree, the root and the
entities transitively targeting it. -/
def deleteTree (s : Store) (rootId : String) : Store :=
  let ids := deleteClosure s rootId s.entities.length
  { s with entities := s.entities.filter (fun e =>
      !(match e.id with
        | some i => ids.contains i
        | none => false)) }

/-- BookList.post from rest.py, as a transition on the store paired with
the HTTP status code (the response body is outside this model).  Checks in
source order: permission, image-BookPortion prevalidation, no preset id,
file extensions; then the book is persisted, the page loop runs, and on a
failure inside the try block the just-created book tree is deleted and 419
returned. -/
def bookListPost (s : Store) (authorized : Bool) (book : Entity)
    (files : List String) (saveOutcomes : List Bool) : Store × Nat :=
  if !authorized then (s, 401)
  else if !(book.base_data == some "image") || !(book.jsonClass == "BookPortion") then (s, 417)
  else if book.id.isSome then (s, 405)
  else if files.any (fun f => !(is_extension_allowed f allowed_extensions)) then (s, 418)
  else
    match upsert s book with
    | Except.error _ => (s, 500)
    | Except.ok (s1, book1) =>
      let bookId := book1.id.getD ""
      let r := savePages bookId s1 saveOutcomes 0
      if r.2 then (r.1, 200)
      else (deleteTree r.1 bookId, 419)

/-! ## Entity list handlers (EntityListHandler.post / delete) -/

/-- A JsonObjectNode: a content entity with child trees. -/
inductive JsonNode where
  | node (content : Entity) (children : List JsonNode)

mutual
/-- Preorder flattening of a tree: content first, then children. -/
def flattenNode : JsonNode → List Entity
  | JsonNode.node c kids => c :: flattenForest kids
/-- Preorder flattening of a forest of trees. -/
def flattenForest : List JsonNode → List Entity
  | [] => []
  | n :: rest => flattenNode n ++ flattenForest rest
end

/-- Sequential upsert of a list of entities, stopping at the first failure;
entities persisted before the failure remain persisted. -/
def upsertSeq : Store → List Entity → Store × Option UpsertError
  | s, [] => (s, none)
  | s, e :: rest =>
    match upsert s e with
    | Except.error err => (s, some err)
    | Except.ok (s1, _) => upsertSeq s1 rest

/-- Modelled from the spec: JsonObjectNode.update_collection persists the
content entity and then the children recursively, in order; an exception
aborts mid-tree leaving earlier writes in place. -/
def nodeUpsert (s : Store) (n : JsonNode) : Store × Option UpsertError :=
  upsertSeq s (flattenNode n)

/-- HTTP status code reported by EntityListHandler.post per error kind. -/
def errCode : UpsertError → Nat
  | UpsertError.targetValidation => 418
  | UpsertError.schemaValidation => 417

/-- The tree loop of EntityListHandler.post: trees strictly in order,
returning the error code of the first failing tree. -/
def entityListPostLoop : Store → List JsonNode → Store × Nat
  | s, [] => (s, 200)
  | s, n :: rest =>
    match nodeUpsert s n with
    | (s1, some err) => (s1, errCode err)
    | (s1, none) => entityListPostLoop s1 rest

/-- EntityListHandler.post from rest.py: permission check, then the tree
loop. -/
def entityListPost (s : Store) (authorized : Bool) (nodes : List JsonNode) :
    Store × Nat :=
  if !authorized then (s, 401) else entityListPostLoop s nodes

/-- Deletion of the content entity of one input tree. -/
def deleteNodeContent (st : Store) : JsonNode → Store
  | JsonNode.node c _ =>
    match c.id with
    | some i => deleteEntity st i
    | none => st

/-- Modelled from the spec: EntityListHandler.delete deletes the content of
each input tree via the idempotent entity delete, and always returns
success. -/
def entityListDelete (s : Store) (authorized : Bool) (nodes : List JsonNode) :
    Store × Nat :=
  if !authorized then (s, 401)
  else (nodes.foldl deleteNodeContent s, 200)

/-! ## Tree assembly (fill_descendents) and read handlers -/

/-- A response tree node: a content entity with child trees. -/
inductive TreeNode where
  | node (content : Entity) (children : List TreeNode)

/-- Modelled from the spec: the tree assembler attaches, at each node, the
targetters of the node content, recursing with depth - 1; depth 0 yields a
leaf. -/
def buildTree (s : Store) (typeFilter : Option String) : Nat → Entity → TreeNode
  | 0, root => TreeNode.node root []
  | Nat.succ d, root =>
    TreeNode.node root
      ((getTargettingEntities s (root.id.getD "") typeFilter).map
        (buildTree s typeFilter d))

mutual
/-- Height of a response tree: a leaf has height 0. -/
def heightNode : TreeNode → Nat
  | TreeNode.node _ kids => heightForest kids
/-- One plus the largest height in the forest, or 0 when empty. -/
def heightForest : List TreeNode → Nat
  | [] => 0
  | t :: rest => max (heightNode t + 1) (heightForest rest)
end

/-- EntityHandler.get from rest.py: fetch by id, 404 when absent, else the
entity tree filled to the requested depth, default 1. -/
def entityHandlerGet (s : Store) (entityId : String) (depthArg : Option Nat) :
    Option TreeNode :=
  match s.entities.find? (fun e => e.id == some entityId) with
  | none => none
  | some entity => some (buildTree s none (depthArg.getD 1) entity)

/-- EntityTargettersHandler.get from rest.py: the targetters of the entity,
each filled to depth - 1 with the requested depth defaulting to 10. -/
def entityTargettersGet (s : Store) (entityId : String)
    (targetterClass : Option String) (depthArg : Option Nat) : List TreeNode :=
  (getTargettingEntities s entityId targetterClass).map
    (buildTree s targetterClass (depthArg.getD 10 - 1))

/-! ## Concrete example data -/

/-- A persisted page. -/
def cexPage : Entity :=
  { id := some "p1", jsonClass := "BookPortion", base_data := some "image" }

/-- A pre-existing, human-provided image annotation on the page. -/
def cexAnn : Entity :=
  { id := some "a1", jsonClass := "ImageAnnotation",
    targets := [{ container_id := "p1", rectangle := some { x := 3, y := 4, w := 5, h := 6 } }],
    source := some { source_type := "user_provided", id := "someuser" } }

/-- A store holding the page and the human-provided annotation. -/
def cexStore : Store := { entities := [cexPage, cexAnn], nextId := 0 }

/-- A single detected region. -/
def cexRegion : Region := { x0 := 1, y0 := 2, x1 := 11, y1 := 22 }

/-! ## Annotation inference lemmas -/

lemma known_length_ne {s : Store} {pid : String}
    (h : getTargettingEntities s pid (some imageAnnotationType) ≠ []) :
    (getTargettingEntities s pid (some imageAnnotationType)).length ≠ 0 := by
  simpa [List.length_eq_zero] using h

lemma force_runs_detect (s : Store) (pid : String) (regs : List Region)
    (h1 : getTargettingEntities s pid (some imageAnnotationType) ≠ [])
    (h2 : (getTargettingEntities s pid (some imageAnnotationType)).all
        (fun a => !(isSystemInferredB a)) = true) :
    updateImageAnnotations s pid regs true = detectAndPersist pid s regs := by
  have hl := known_length_ne h1
  have hfilter : (getTargettingEntities s pid (some imageAnnotationType)).filter
      isSystemInferredB = [] := by
    rw [List.filter_eq_nil_iff]
    intro a ha
    have := List.all_eq_true.mp h2 a ha
    simpa using this
  simp [updateImageAnnotations, hl, hfilter]

lemma upsert_fresh (s : Store) (e : Entity) (hres : targetsResolve s e = true)
    (hid : e.id = none) :
    upsert s e = Except.ok
      ({ entities := s.entities ++ [{ e with id := some ("e" ++ toString s.nextId) }],
         nextId := s.nextId + 1 },
       { e with id := some ("e" ++ toString s.nextId) }) := by
  simp [upsert, hres, hid]

lemma detectAndPersist_spec (pid : String) (regs : List Region) :
    ∀ (s : Store), s.hasId pid = true →
    (detectAndPersist pid s regs).1.entities
      = s.entities ++ (detectAndPersist pid s regs).2 ∧
    (detectAndPersist pid s regs).2.all
      (fun a => a.source == some { source_type := "system_inferred", id := "pyCV2" }) = true := by
  induction regs with
  | nil => intro s hpid; simp [detectAndPersist]
  | cons reg rest ih =>
    intro s hpid
    have hres : targetsResolve s (mkAnnotEntity pid reg) = true := by
      simp [targetsResolve, mkAnnotEntity, hpid]
    have hup := upsert_fresh s (mkAnnotEntity pid reg) hres rfl
    have hpid2 : Store.hasId
        { entities := s.entities ++ [{ mkAnnotEntity pid reg with id := some ("e" ++ toString s.nextId) }],
          nextId := s.nextId + 1 } pid = true := by
      simp only [Store.hasId, List.any_append]
      rw [Bool.or_eq_true]
      exact Or.inl hpid
    have ihs := ih _ hpid2
    simp only [detectAndPersist, hup]
    constructor
    · rw [ihs.1]
      simp [List.append_assoc]
    · simp only [List.all_cons, Bool.and_eq_true]
      exact ⟨by simp [mkAnnotEntity], ihs.2⟩

/-! ## Claim C1 -/

/-- Claim C1: for a page that already has at least one ImageAnnotation
targeting it, update_image_annotations with no force flag returns the
existing annotations and leaves the store unchanged, and a second call on
the resulting store returns the identical sequence again, for any detector
output (the region-detection routine is never consulted: the result is
independent of the regions and nothing is persisted). -/
theorem updateImageAnnotations_second_call_stable
    (s : Store) (pid : String) (regs1 regs2 : List Region)
    (h : getTargettingEntities s pid (some imageAnnotationType) ≠ []) :
    updateImageAnnotations s pid regs1 false
      = (s, getTargettingEntities s pid (some imageAnnotationType)) ∧
    updateImageAnnotations (updateImageAnnotations s pid regs1 false).1 pid regs2 false
      = updateImageAnnotations s pid regs1 false := by
  have hl := known_length_ne h
  constructor
  · simp [updateImageAnnotations, hl]
  · simp [updateImageAnnotations, hl]

/-- Witness for C1 at a concrete store holding one annotation. -/
theorem updateImageAnnotations_second_call_stable_witness :
    (getTargettingEntities cexStore "p1" (some imageAnnotationType) ≠ []) ∧
    updateImageAnnotations (updateImageAnnotations cexStore "p1" [cexRegion] false).1 "p1" [] false
      = updateImageAnnotations cexStore "p1" [cexRegion] false :=
  ⟨by decide,
   (updateImageAnnotations_second_call_stable cexStore "p1" [cexRegion] [] (by decide)).2⟩

/-! ## Claim C2 -/

/-- Claim C2 counterexample: on a page whose only existing annotation is
human-provided (not system-inferred), calling update_image_annotations with
the force flag does NOT short-circuit: the store gains a new entity and the
returned sequence differs from the existing annotations. -/
theorem force_shortcircuit_counterexample :
    (updateImageAnnotations cexStore "p1" [cexRegion] true).1 ≠ cexStore ∧
    (updateImageAnnotations cexStore "p1" [cexRegion] true).2
      ≠ getTargettingEntities cexStore "p1" (some imageAnnotationType) := by
  constructor
  · decide
  · decide

/-- Claim C2 (amended): for a page with existing annotations none of which
is system-inferred, update_image_annotations with
force_if_not_system_inferred true runs region detection: it behaves exactly
as the detection loop, persisting new system-inferred annotations and
returning them. -/
theorem updateImageAnnotations_force_detects_when_no_system_inferred
    (s : Store) (pid : String) (regs : List Region)
    (h1 : getTargettingEntities s pid (some imageAnnotationType) ≠ [])
    (h2 : (getTargettingEntities s pid (some imageAnnotationType)).all
        (fun a => !(isSystemInferredB a)) = true) :
    updateImageAnnotations s pid regs true = detectAndPersist pid s regs :=
  force_runs_detect s pid regs h1 h2

/-- Witness for the amended C2 at a concrete store. -/
theorem updateImageAnnotations_force_detects_witness :
    (getTargettingEntities cexStore "p1" (some imageAnnotationType) ≠ []) ∧
    ((getTargettingEntities cexStore "p1" (some imageAnnotationType)).all
        (fun a => !(isSystemInferredB a)) = true) ∧
    updateImageAnnotations cexStore "p1" [cexRegion] true
      = detectAndPersist "p1" cexStore [cexRegion] :=
  ⟨by decide, by decide,
   updateImageAnnotations_force_detects_when_no_system_inferred cexStore "p1" [cexRegion]
     (by decide) (by decide)⟩

/-! ## Claim C3 -/

/-- A page with no annotations yet. -/
def c3page : Entity :=
  { id := some "p1", jsonClass := "BookPortion", title := some "pg_0",
    base_data := some "image" }

/-- A store holding only the bare page. -/
def c3store : Store := { entities := [c3page], nextId := 0 }

/-- The two detected regions of the scenario, scores included. -/
def c3regions : List Region :=
  [{ x0 := 10, y0 := 10, x1 := 50, y1 := 60, score := some (9 / 10) },
   { x0 := 100, y0 := 100, x1 := 150, y1 := 140, score := some (1 / 2) }]

/-- The first created annotation: rectangle x 10 y 10 w 40 h 50. -/
def c3ann0 : Entity :=
  { id := some "e0", jsonClass := "ImageAnnotation",
    targets := [{ container_id := "p1",
                  rectangle := some { x := 10, y := 10, w := 40, h := 50 } }],
    source := some { source_type := "system_inferred", id := "pyCV2" } }

/-- The second created annotation: rectangle x 100 y 100 w 50 h 40. -/
def c3ann1 : Entity :=
  { id := some "e1", jsonClass := "ImageAnnotation",
    targets := [{ container_id := "p1",
                  rectangle := some { x := 100, y := 100, w := 50, h := 40 } }],
    source := some { source_type := "system_inferred", id := "pyCV2" } }

/-- Claim C3: on a page with no prior annotations and detector output
[[10,10,50,60,0.9],[100,100,150,140,0.5]], update_image_annotations creates
exactly two annotation entities in detection order, each with one target on
the page carrying the converted rectangle (x = x0, y = y0, w = x1 - x0,
h = y1 - y0, score discarded) and source system_inferred. -/
theorem updateImageAnnotations_two_regions_scenario :
    updateImageAnnotations c3store "p1" c3regions false
      = ({ entities := [c3page, c3ann0, c3ann1], nextId := 2 }, [c3ann0, c3ann1]) := by
  rfl

/-! ## Claim C9 -/

/-- Claim C9: on the force path with existing annotations none of which is
system-inferred, the pre-existing store entities are preserved unchanged
(the new store is the old list with the new annotations appended), every
returned annotation is newly created with source system_inferred / pyCV2,
and none of the pre-existing annotations targeting the page appears in the
returned sequence. -/
theorem updateImageAnnotations_force_frame
    (s : Store) (pid : String) (regs : List Region)
    (hpid : s.hasId pid = true)
    (h1 : getTargettingEntities s pid (some imageAnnotationType) ≠ [])
    (h2 : (getTargettingEntities s pid (some imageAnnotationType)).all
        (fun a => !(isSystemInferredB a)) = true) :
    (updateImageAnnotations s pid regs true).1.entities
      = s.entities ++ (updateImageAnnotations s pid regs true).2 ∧
    (updateImageAnnotations s pid regs true).2.all
      (fun a => a.source == some { source_type := "system_inferred", id := "pyCV2" }) = true ∧
    (getTargettingEntities s pid (some imageAnnotationType)).all
      (fun a => decide (a ∉ (updateImageAnnotations s pid regs true).2)) = true := by
  rw [force_runs_detect s pid regs h1 h2]
  obtain ⟨hframe, hsrc⟩ := detectAndPersist_spec pid regs s hpid
  refine ⟨hframe, hsrc, ?_⟩
  rw [List.all_eq_true]
  intro a ha
  have hnot := List.all_eq_true.mp h2 a ha
  simp only [Bool.not_eq_true'] at hnot
  simp only [decide_eq_true_eq]
  intro hmem
  have hsi := List.all_eq_true.mp hsrc a hmem
  rw [beq_iff_eq] at hsi
  simp [isSystemInferredB, hsi] at hnot

/-- Witness for C9 at a concrete store. -/
theorem updateImageAnnotations_force_frame_witness :
    (cexStore.hasId "p1" = true) ∧
    (getTargettingEntities cexStore "p1" (some imageAnnotationType) ≠ []) ∧
    (updateImageAnnotations cexStore "p1" [cexRegion] true).1.entities
      = cexStore.entities ++ (updateImageAnnotations cexStore "p1" [cexRegion] true).2 :=
  ⟨by decide, by decide,
   (updateImageAnnotations_force_frame cexStore "p1" [cexRegion]
     (by decide) (by decide) (by decide)).1⟩

/-! ## Claim C4 -/

/-- An empty store. -/
def emptyStore : Store := { entities := [], nextId := 0 }

/-- An annotation whose target names a container id that is nowhere
persisted. -/
def c4ent : Entity :=
  { jsonClass := "ImageAnnotation",
    targets := [{ container_id := "zz" }],
    source := some { source_type := "user_provided", id := "someuser" } }

/-- Claim C4: upserting an entity one of whose targets names a container id
absent from the store fails with TargetValidationError, and the POST
/entities handler reports it as code 418 with the store unchanged: the
entity is not persisted. -/
theorem upsert_unresolvable_target_fails
    (s : Store) (e : Entity) (t : Target)
    (ht : t ∈ e.targets) (h : s.hasId t.container_id = false) :
    upsert s e = Except.error UpsertError.targetValidation ∧
    entityListPost s true [JsonNode.node e []] = (s, 418) := by
  have hres : targetsResolve s e = false := by
    rcases Bool.eq_false_or_eq_true (targetsResolve s e) with htr | hf
    · rw [targetsResolve] at htr
      have := List.all_eq_true.mp htr t ht
      rw [h] at this
      exact (Bool.false_ne_true this).elim
    · exact hf
  have hup : upsert s e = Except.error UpsertError.targetValidation := by
    simp [upsert, hres]
  refine ⟨hup, ?_⟩
  simp [entityListPost, entityListPostLoop, nodeUpsert, flattenNode, flattenForest,
        upsertSeq, hup, errCode]

/-- Witness for C4: the empty store and a concrete dangling target. -/
theorem upsert_unresolvable_target_fails_witness :
    ({ container_id := "zz" } ∈ c4ent.targets) ∧
    (emptyStore.hasId "zz" = false) ∧
    upsert emptyStore c4ent = Except.error UpsertError.targetValidation ∧
    entityListPost emptyStore true [JsonNode.node c4ent []] = (emptyStore, 418) :=
  ⟨by decide, by decide,
   upsert_unresolvable_target_fails emptyStore c4ent { container_id := "zz" }
     (by decide) (by decide)⟩

/-! ## Claim C5 -/

/-- An unpersisted reference entity whose id names nothing in the store. -/
def c5ghost : Entity := { id := some "ghost", jsonClass := "BookPortion" }

/-- Claim C5: deleting a tree whose content id is absent from the store
succeeds with code 200 and leaves the store unchanged, and entity deletion
is idempotent: deleting the same id twice equals deleting it once (stated
for an arbitrary store and id in the last conjunct). -/
theorem delete_nonexistent_id_noop
    (s : Store) (e : Entity) (i : String) (s2 : Store) (j : String)
    (hid : e.id = some i) (h : s.hasId i = false) :
    entityListDelete s true [JsonNode.node e []] = (s, 200) ∧
    deleteEntity (deleteEntity s2 j) j = deleteEntity s2 j := by
  constructor
  · have hfil : s.entities.filter (fun x => !(x.id == some i)) = s.entities := by
      rw [List.filter_eq_self]
      intro a ha
      have := List.any_eq_false.mp h a ha
      simpa using this
    have hdel : deleteEntity s i = s := by
      simp [deleteEntity, hfil]
    simp [entityListDelete, deleteNodeContent, hid, hdel]
  · simp [deleteEntity, List.filter_filter]

/-- Witness for C5: deleting the absent id "ghost" from a concrete store. -/
theorem delete_nonexistent_id_noop_witness :
    (c5ghost.id = some "ghost") ∧
    (cexStore.hasId "ghost" = false) ∧
    entityListDelete cexStore true [JsonNode.node c5ghost []] = (cexStore, 200) :=
  ⟨by decide, by decide,
   (delete_nonexistent_id_noop cexStore c5ghost "ghost" cexStore "ghost"
     (by decide) (by decide)).1⟩

/-! ## Claim C10 -/

lemma upsert_hasId {s s' : Store} {e e' : Entity} {i : String}
    (hup : upsert s e = Except.ok (s', e')) (h : s.hasId i = true) :
    s'.hasId i = true := by
  unfold upsert at hup
  by_cases hres : targetsResolve s e = true
  · rw [if_pos hres] at hup
    cases hid : e.id with
    | none =>
      rw [hid] at hup
      simp only [Except.ok.injEq, Prod.mk.injEq] at hup
      rw [← hup.1]
      simp only [Store.hasId, List.any_append, Bool.or_eq_true]
      exact Or.inl h
    | some j =>
      rw [hid] at hup
      simp only [Except.ok.injEq, Prod.mk.injEq] at hup
      rw [← hup.1]
      simp only [Store.hasId, List.any_map]
      rw [List.any_eq_true]
      obtain ⟨x, hx, hqx⟩ := List.any_eq_true.mp h
      refine ⟨x, hx, ?_⟩
      simp only [Function.comp]
      by_cases hxe : x.id = some j
      · rw [if_pos hxe]
        rw [beq_iff_eq] at hqx ⊢
        rw [hid, ← hxe]
        exact hqx
      · rw [if_neg hxe]
        exact hqx
  · rw [if_neg hres] at hup
    cases hup

lemma upsertSeq_hasId {i : String} (es : List Entity) :
    ∀ (s : Store), s.hasId i = true → ((upsertSeq s es).1).hasId i = true := by
  induction es with
  | nil => intro s h; exact h
  | cons e rest ih =>
    intro s h
    unfold upsertSeq
    cases hup : upsert s e with
    | error err => simpa using h
    | ok p =>
      obtain ⟨s1, e1⟩ := p
      simp only
      exact ih s1 (upsert_hasId hup h)

lemma errCode_ne_200 (err : UpsertError) : errCode err ≠ 200 := by
  cases err <;> simp [errCode]

lemma entityListPostLoop_append {s1 : Store} (pre : List JsonNode) :
    ∀ {s : Store} (rest : List JsonNode),
    entityListPostLoop s pre = (s1, 200) →
    entityListPostLoop s (pre ++ rest) = entityListPostLoop s1 rest := by
  induction pre with
  | nil =>
    intro s rest h
    simp only [entityListPostLoop, Prod.mk.injEq] at h
    rw [List.nil_append, h.1]
  | cons n pre ih =>
    intro s rest h
    rw [List.cons_append]
    cases hnu : nodeUpsert s n with
    | mk s2 oerr =>
      cases oerr with
      | some err =>
        simp only [entityListPostLoop, hnu, Prod.mk.injEq] at h
        exact absurd h.2 (errCode_ne_200 err)
      | none =>
        simp only [entityListPostLoop, hnu] at h
        have hstep : entityListPostLoop s (n :: (pre ++ rest))
            = entityListPostLoop s2 (pre ++ rest) := by
          simp only [entityListPostLoop, hnu]
        rw [hstep]
        exact ih rest h

/-- Claim C10: POST /entities processes the submitted trees strictly in
order and stops at the first tree whose upsert fails: when the trees before
the failing one all succeed (reaching store s1) and tree t fails with some
validation error, the response is the code of that error with the store as
left by the failed attempt, independent of the trees after t (which are
never written), and every id persisted by the earlier trees is still
persisted. -/
theorem entityListPost_stops_at_first_failure
    (s s1 s2 : Store) (pre post : List JsonNode) (t : JsonNode)
    (err : UpsertError) (i : String)
    (hpre : entityListPostLoop s pre = (s1, 200))
    (hfail : nodeUpsert s1 t = (s2, some err))
    (hi : s1.hasId i = true) :
    entityListPost s true (pre ++ t :: post) = (s2, errCode err) ∧
    s2.hasId i = true := by
  constructor
  · show entityListPostLoop s (pre ++ t :: post) = (s2, errCode err)
    rw [entityListPostLoop_append pre (t :: post) hpre]
    unfold entityListPostLoop
    rw [hfail]
  · have hs2 : (upsertSeq s1 (flattenNode t)).1 = s2 := by
      have := congrArg Prod.fst hfail
      simpa [nodeUpsert] using this
    rw [← hs2]
    exact upsertSeq_hasId (flattenNode t) s1 hi

/-- A store holding just one persisted page. -/
def c10store : Store := { entities := [cexPage], nextId := 3 }

/-- A well-formed annotation tree targeting the persisted page. -/
def c10good : JsonNode :=
  JsonNode.node
    { jsonClass := "ImageAnnotation",
      targets := [{ container_id := "p1" }],
      source := some { source_type := "user_provided", id := "someuser" } } []

/-- Witness for C10: an empty prefix, a failing tree with a dangling
target, and a valid tree after it that is never written. -/
theorem entityListPost_stops_at_first_failure_witness :
    (entityListPostLoop c10store [] = (c10store, 200)) ∧
    (nodeUpsert c10store (JsonNode.node c4ent [])
      = (c10store, some UpsertError.targetValidation)) ∧
    entityListPost c10store true ([] ++ JsonNode.node c4ent [] :: [c10good])
      = (c10store, errCode UpsertError.targetValidation) ∧
    c10store.hasId "p1" = true :=
  ⟨rfl, by decide,
   (entityListPost_stops_at_first_failure c10store c10store c10store []
     [c10good] (JsonNode.node c4ent []) UpsertError.targetValidation "p1"
     rfl (by decide) (by decide)).1,
   by decide⟩

/-! ## Claims C6 and C7 -/

lemma savePages_fails (bid : String) (outs : List Bool) :
    ∀ (s : Store) (i : Nat), false ∈ outs →
    (savePages bid s outs i).2 = false := by
  induction outs with
  | nil => intro s i h; cases h
  | cons ok rest ih =>
    intro s i h
    unfold savePages
    cases hup : upsert s (pageEntity bid i) with
    | error err => simp
    | ok p =>
      obtain ⟨s2, pg⟩ := p
      simp only
      cases ok with
      | false => simp
      | true =>
        simp only [if_true]
        rcases List.mem_cons.mp h with hft | hmem
        · cases hft
        · exact ih s2 (i + 1) hmem

lemma deleteClosure_mem (s : Store) (rootId : String) :
    ∀ (n : Nat), rootId ∈ deleteClosure s rootId n := by
  intro n
  induction n with
  | zero => simp [deleteClosure]
  | succ n ih =>
    unfold deleteClosure
    exact List.mem_append_left _ ih

lemma deleteTree_kills (s : Store) (rootId : String) :
    (deleteTree s rootId).hasId rootId = false := by
  unfold deleteTree Store.hasId
  rw [List.any_eq_false]
  intro e he
  rw [List.mem_filter] at he
  obtain ⟨he1, he2⟩ := he
  intro hq
  rw [beq_iff_eq] at hq
  rw [hq] at he2
  simp at he2
  exact he2 (deleteClosure_mem s rootId s.entities.length)

/-- Claim C6: in the multi-file book upload, when the book passes
prevalidation and is persisted but a later page-saving step fails, the
handler returns code 419 and deletes the just-created book entity tree:
the id assigned to the book is no longer persisted afterwards. -/
theorem bookListPost_rollback_on_save_failure
    (s : Store) (book : Entity) (files : List String) (outs : List Bool)
    (hb1 : book.base_data = some "image") (hb2 : book.jsonClass = "BookPortion")
    (hb3 : book.id = none)
    (hexts : files.any (fun f => !(is_extension_allowed f allowed_extensions)) = false)
    (hres : targetsResolve s book = true)
    (hfail : false ∈ outs) :
    (bookListPost s true book files outs).2 = 419 ∧
    (bookListPost s true book files outs).1.hasId ("e" ++ toString s.nextId) = false := by
  have hup := upsert_fresh s book hres hb3
  have hsp := savePages_fails ("e" ++ toString s.nextId) outs
      { entities := s.entities ++ [{ book with id := some ("e" ++ toString s.nextId) }],
        nextId := s.nextId + 1 } 0 hfail
  have hmain : bookListPost s true book files outs
      = (deleteTree (savePages ("e" ++ toString s.nextId)
          { entities := s.entities ++ [{ book with id := some ("e" ++ toString s.nextId) }],
            nextId := s.nextId + 1 } outs 0).1 ("e" ++ toString s.nextId), 419) := by
    unfold bookListPost
    have hcond : (!(book.base_data == some "image") || !(book.jsonClass == "BookPortion"))
        = false := by
      simp [hb1, hb2]
    simp only [hcond, hb3, hexts, Bool.not_true, Option.isSome_none, Bool.false_eq_true,
      if_false, hup, Option.getD_some, hsp]
  rw [hmain]
  exact ⟨rfl, deleteTree_kills _ _⟩

/-- A valid image book for upload, not yet persisted. -/
def c6book : Entity :=
  { jsonClass := "BookPortion", title := some "mybook", base_data := some "image" }

/-- Witness for C6: one uploaded jpg whose file-saving step fails. -/
theorem bookListPost_rollback_witness :
    (c6book.base_data = some "image") ∧
    (["x.jpg"].any (fun f => !(is_extension_allowed f allowed_extensions)) = false) ∧
    (false ∈ [false]) ∧
    (bookListPost emptyStore true c6book ["x.jpg"] [false]).2 = 419 ∧
    (bookListPost emptyStore true c6book ["x.jpg"] [false]).1.hasId
      ("e" ++ toString emptyStore.nextId) = false :=
  ⟨rfl, by decide, by decide,
   (bookListPost_rollback_on_save_failure emptyStore c6book ["x.jpg"] [false]
     rfl rfl rfl (by decide) (by decide) (by decide)).1,
   (bookListPost_rollback_on_save_failure emptyStore c6book ["x.jpg"] [false]
     rfl rfl rfl (by decide) (by decide) (by decide)).2⟩

/-- Claim C7: when the uploaded book passes the earlier prevalidation
checks but some uploaded file name has an extension outside the allowed
set, BookList.post returns code 418 and the store is unchanged: the
extension check on every file precedes the first store write. -/
theorem bookListPost_bad_extension_rejected
    (s : Store) (book : Entity) (files : List String) (outs : List Bool)
    (hb1 : book.base_data = some "image") (hb2 : book.jsonClass = "BookPortion")
    (hb3 : book.id = none)
    (hbad : files.any (fun f => !(is_extension_allowed f allowed_extensions)) = true) :
    bookListPost s true book files outs = (s, 418) := by
  unfold bookListPost
  simp only [hb1, hb2, hb3, hbad, beq_self_eq_true, Bool.not_true, Bool.or_self,
    Option.isSome_none, Bool.false_eq_true, if_false, if_true]

/-- Witness for C7: an uploaded file with a .txt extension is rejected with
the store untouched. -/
theorem bookListPost_bad_extension_witness :
    (["x.txt"].any (fun f => !(is_extension_allowed f allowed_extensions)) = true) ∧
    bookListPost cexStore true c6book ["x.txt"] [true] = (cexStore, 418) :=
  ⟨by decide,
   bookListPost_bad_extension_rejected cexStore c6book ["x.txt"] [true]
     rfl rfl rfl (by decide)⟩

/-! ## Claim C8 -/

lemma heightForest_le (k : Nat) :
    ∀ (ts : List TreeNode), (∀ t ∈ ts, heightNode t ≤ k) → heightForest ts ≤ k + 1 := by
  intro ts
  induction ts with
  | nil => intro _; simp [heightForest]
  | cons t rest ih =>
    intro h
    unfold heightForest
    apply max_le
    · exact Nat.succ_le_succ (h t (List.mem_cons_self t rest))
    · exact ih (fun u hu => h u (List.mem_cons_of_mem t hu))

lemma buildTree_height_le (s : Store) (tf : Option String) :
    ∀ (d : Nat) (root : Entity), heightNode (buildTree s tf d root) ≤ d := by
  intro d
  induction d with
  | zero => intro root; simp [buildTree, heightNode, heightForest]
  | succ d ih =>
    intro root
    unfold buildTree heightNode
    apply heightForest_le
    intro t ht
    rw [List.mem_map] at ht
    obtain ⟨e, _, rfl⟩ := ht
    exact ih e

/-- Claim C8: with the depth parameter omitted, the single-entity fetch
builds the tree with depth 1 (same response as an explicit depth of 1, and
the resulting tree has immediate children only: height at most 1), and the
targetters fetch uses the default depth 10 (same response as an explicit
depth of 10, each targetter filled 9 further levels, so entities up to 10
relation steps below the container appear and none deeper). -/
theorem handler_default_depths
    (s : Store) (eid : String) (tc : Option String) (tr : TreeNode)
    (h : entityHandlerGet s eid none = some tr) :
    entityHandlerGet s eid (some 1) = some tr ∧
    heightNode tr ≤ 1 ∧
    entityTargettersGet s eid tc none = entityTargettersGet s eid tc (some 10) ∧
    heightForest (entityTargettersGet s eid tc none) ≤ 10 := by
  refine ⟨h, ?_, rfl, ?_⟩
  · unfold entityHandlerGet at h
    cases hf : s.entities.find? (fun e => e.id == some eid) with
    | none => rw [hf] at h; cases h
    | some e =>
      rw [hf] at h
      simp only [Option.some.injEq] at h
      exact h ▸ buildTree_height_le s none (Option.getD none 1) e
  · unfold entityTargettersGet
    refine heightForest_le 9 _ ?_
    intro t ht
    rw [List.mem_map] at ht
    obtain ⟨e, _, rfl⟩ := ht
    exact buildTree_height_le s tc _ e

/-- A persisted book. -/
def w8book : Entity :=
  { id := some "b1", jsonClass := "BookPortion", base_data := some "image" }

/-- A page targeting the book. -/
def w8page : Entity :=
  { id := some "p2", jsonClass := "BookPortion", base_data := some "image",
    targets := [{ container_id := "b1", position := some 0 }] }

/-- An annotation targeting the page. -/
def w8ann : Entity :=
  { id := some "a3", jsonClass := "ImageAnnotation",
    targets := [{ container_id := "p2",
                  rectangle := some { x := 1, y := 1, w := 2, h := 2 } }],
    source := some { source_type := "system_inferred", id := "pyCV2" } }

/-- A store with a book, a page under it, and an annotation under the page. -/
def w8store : Store := { entities := [w8book, w8page, w8ann], nextId := 0 }

/-- The depth-1 response tree for the book: the page child is a leaf, the
annotation under it is not expanded. -/
def w8tree : TreeNode := TreeNode.node w8book [TreeNode.node w8page []]

/-- Witness for C8 on the concrete three-level store. -/
theorem handler_default_depths_witness :
    (entityHandlerGet w8store "b1" none = some w8tree) ∧
    heightNode w8tree ≤ 1 ∧
    heightForest (entityTargettersGet w8store "b1" none none) ≤ 10 :=
  ⟨rfl,
   (handler_default_depths w8store "b1" none w8tree rfl).2.1,
   (handler_default_depths w8store "b1" none w8tree rfl).2.2.2⟩
